import Mathlib

/-!
Verification of the `project-lint` hook rule engine.

This file gives a shallow embedding of the event-driven rule evaluation
engine of the repository (`src/hooks/engine.rs`), together with the parts of
the event model (`src/hooks/mod.rs`), the Claude event mapper
(`src/hooks/mappers/claude.rs`), the hook command driver
(`src/commands/hook.rs`), the hook logger (`src/hooks/logger.rs`) and the
`matches_pattern` helper (`src/commands/watch.rs`) that the engine uses.

Conventions of the embedding:
- Rust `String`/`&str` and `PathBuf` are Lean `String`.
- `serde_json::Value` is the `Json` inductive below; parsing by `serde_json`
  (an external library) is represented by passing its result
  (`Option Json`, `none` = parse failure) where the code parses.
- A Rust function that can panic is embedded as an `Option`-valued function,
  `none` standing for the panic.
- The file system visible to `is_pnpm_workspace` (the directory at the
  resolved working directory) is the `ProjectDir` structure.
-/

/-! ## String helpers (Rust std string operations used by the code) -/

/-- Rust `str::starts_with` for string prefixes. -/
def strStartsWith (s pre : String) : Bool := pre.data.isPrefixOf s.data

/-- Rust `str::ends_with` for string suffixes. -/
def strEndsWith (s suf : String) : Bool := suf.data.isSuffixOf s.data

/-- Substring containment on character lists: does `pat` occur contiguously in `hay`? -/
def listContainsSub (hay pat : List Char) : Bool :=
  match hay with
  | [] => pat.isEmpty
  | _ :: rest => pat.isPrefixOf hay || listContainsSub rest pat

/-- Rust `str::contains` with a string pattern (substring containment). -/
def strContainsSub (hay pat : String) : Bool := listContainsSub hay.data pat.data

/-- Rust `str::trim_matches(c)`: strip every leading and trailing occurrence of `c`. -/
def trimMatchesChar (c : Char) (s : String) : String :=
  String.mk (((s.data.dropWhile (fun a => a == c)).reverse.dropWhile (fun a => a == c)).reverse)

/-- One step list of Rust `str::replace`: scan left to right, replacing each
non-overlapping occurrence of `pat` by `rep`.  The fuel argument (always
instantiated with more than the length of the scanned list) makes the
recursion structural. -/
def replaceLoop : Nat → List Char → List Char → List Char → List Char
  | 0, _, _, _ => []
  | _ + 1, [], _, _ => []
  | fuel + 1, c :: rest, pat, rep =>
    if !pat.isEmpty && pat.isPrefixOf (c :: rest) then
      rep ++ replaceLoop fuel ((c :: rest).drop pat.length) pat rep
    else
      c :: replaceLoop fuel rest pat rep

/-- Rust `str::replace(pat, rep)` for a non-empty pattern. -/
def strReplace (s pat rep : String) : String :=
  String.mk (replaceLoop (s.data.length + 1) s.data pat.data rep.data)

/-- Concatenation of a list of strings (used to state what the engine's
message-building fold produces). -/
def strJoin : List String → String
  | [] => ""
  | s :: rest => s ++ strJoin rest

/-! ## JSON values (`serde_json::Value`) -/

/-- `serde_json::Value`.  Numbers are irrelevant to every modeled code path
and are carried as `Int`. -/
inductive Json where
  | null
  | bool (b : Bool)
  | num (n : Int)
  | str (s : String)
  | arr (elems : List Json)
  | obj (fields : List (String × Json))

/-- `serde_json::Value::get(key)`: field lookup, `none` when `j` is not an
object or the key is absent. -/
def jsonGet (j : Json) (key : String) : Option Json :=
  match j with
  | Json.obj fields => (fields.find? (fun f => f.1 == key)).map (fun f => f.2)
  | _ => none

/-- `serde_json::Value` square-bracket indexing with a string key: yields
`Null` when the key is absent or `j` is not an object. -/
def jsonIndex (j : Json) (key : String) : Json := (jsonGet j key).getD Json.null

/-- `serde_json::Value::as_str`. -/
def jsonAsStr : Json → Option String
  | Json.str s => some s
  | _ => none

/-- `serde_json::Value` square-bracket assignment `j[key] = v` on an object
(the code only reaches it after `get(key)` returned `Some`, so the key is
present and `j` is an object). -/
def jsonSet (j : Json) (key : String) (v : Json) : Json :=
  match j with
  | Json.obj fields =>
    Json.obj (if fields.any (fun f => f.1 == key)
              then fields.map (fun f => if f.1 == key then (f.1, v) else f)
              else fields ++ [(key, v)])
  | other => other

/-- serde_json's escaping of one character inside a JSON string literal. -/
def escChar (c : Char) : List Char :=
  if c = '"' then ['\\', '"']
  else if c = '\\' then ['\\', '\\']
  else if c = Char.ofNat 8 then ['\\', 'b']
  else if c = Char.ofNat 12 then ['\\', 'f']
  else if c = '\n' then ['\\', 'n']
  else if c = '\r' then ['\\', 'r']
  else if c = '\t' then ['\\', 't']
  else if c.toNat < 32 then
    ['\\', 'u', '0', '0',
     (if c.toNat / 16 < 10 then Char.ofNat (48 + c.toNat / 16) else Char.ofNat (87 + c.toNat / 16)),
     (if c.toNat % 16 < 10 then Char.ofNat (48 + c.toNat % 16) else Char.ofNat (87 + c.toNat % 16))]
  else [c]

/-- serde_json's escaping of the characters of a JSON string body. -/
def escStr : List Char → List Char
  | [] => []
  | c :: cs => escChar c ++ escStr cs

/-- serde_json's serialization of a string value: quoted and escaped. -/
def serializeJsonString (s : String) : String :=
  "\"" ++ String.mk (escStr s.data) ++ "\""

/-! ## Data model (`src/hooks/mod.rs`, `src/config.rs`) -/

/-- `EventType` from `src/hooks/mod.rs`: closed enumeration with an open
`Unknown` case, serialized by serde with `rename_all = "snake_case"`. -/
inductive EventType where
  | sessionStart
  | sessionEnd
  | preToolUse
  | postToolUse
  | preReadCode
  | postReadCode
  | preWriteCode
  | postWriteCode
  | preRunCommand
  | postRunCommand
  | preUserPrompt
  | postModelResponse
  | notificationEvent
  | permissionRequest
  | stop
  | subagentStop
  | unknown (name : String)
deriving DecidableEq

/-- `FileEdit` from `src/hooks/mod.rs`. -/
structure FileEdit where
  old_string : Option String
  new_string : String
  start_line : Option Nat
  end_line : Option Nat

/-- `EventContext` from `src/hooks/mod.rs`. -/
structure EventContext where
  file_path : Option String := none
  file_content : Option String := none
  edits : Option (List FileEdit) := none
  tool_name : Option String := none
  tool_input : Option Json := none
  tool_result : Option Json := none
  command : Option String := none
  exit_code : Option Int := none
  user_prompt : Option String := none
  model_response : Option String := none
  ide_source : String := "generic"
  original_payload : Option Json := none

/-- `ProjectLintEvent` from `src/hooks/mod.rs`. -/
structure ProjectLintEvent where
  event_type : EventType
  session_id : Option String := none
  timestamp : Option String := none
  cwd : Option String := none
  context : EventContext

/-- `RuleSeverity` from `src/config.rs`. -/
inductive RuleSeverity where
  | error
  | warning
  | info
deriving DecidableEq

/-- `CustomRule`: the fields read by the rule engine and constructed in
`src/hooks/engine_tests.rs` (the struct declaration in `src/config.rs` has
drifted and omits several of them; the engine and its tests are the
authority for the field set). -/
structure CustomRule where
  name : String
  pattern : String
  message : String
  severity : RuleSeverity
  check_content : Bool := false
  content_pattern : Option String := none
  exception_pattern : Option String := none
  condition : Option String := none
  required : Bool := false
  required_if_path_exists : Option String := none
  triggers : List String := []

/-- `ModularRule` from `src/config.rs` restricted to the fields the engine
reads, plus the `triggers` list the engine consumes. -/
structure ModularRule where
  name : String
  enabled : Bool
  triggers : List String := []
  rules : Option (List CustomRule) := none

/-- `RulesConfig`: the part of the config holding top-level custom rules. -/
structure RulesConfig where
  custom_rules : List CustomRule

/-- `Config` restricted to what `RuleEngine::evaluate_event` reads. -/
structure Config where
  modular_rules : List ModularRule
  rules : RulesConfig

/-- `DetectedIssue` from `src/hooks/engine.rs`. -/
structure DetectedIssue where
  name : String
  message : String
  severity : RuleSeverity

/-- `Decision` from `src/hooks/mod.rs`. -/
inductive Decision where
  | allow
  | deny
  | ask
  | warn
deriving DecidableEq

/-- `HookResult` from `src/hooks/mod.rs`. -/
structure HookResult where
  decision : Decision
  message : Option String
  modified_input : Option Json

/-- `HookResult::default()`: Allow, no message, no modified input. -/
def hookResultDefault : HookResult :=
  { decision := Decision.allow, message := none, modified_input := none }

/-- Contents of the directory at the resolved working directory (`event.cwd`,
falling back to the process current directory), as probed by
`RuleEngine::is_pnpm_workspace`.  `packageJson = some r` means `package.json`
exists and reads back with serde parse result `r` (`r = none`: unparseable). -/
structure ProjectDir where
  packageJson : Option (Option Json)
  pnpmWorkspaceYaml : Bool
  pnpmWorkspaceYml : Bool
  pnpmLockYaml : Bool

/-! ## Serialization of event types (`serde_json::to_string` on `EventType`) -/

/-- `serde_json::to_string(&event.event_type)`: unit variants become quoted
snake_case names; the newtype variant `Unknown(x)` becomes the externally
tagged object `\x7b"unknown":"x"\x7d`. -/
def serializeEventType : EventType → String
  | EventType.sessionStart => "\"session_start\""
  | EventType.sessionEnd => "\"session_end\""
  | EventType.preToolUse => "\"pre_tool_use\""
  | EventType.postToolUse => "\"post_tool_use\""
  | EventType.preReadCode => "\"pre_read_code\""
  | EventType.postReadCode => "\"post_read_code\""
  | EventType.preWriteCode => "\"pre_write_code\""
  | EventType.postWriteCode => "\"post_write_code\""
  | EventType.preRunCommand => "\"pre_run_command\""
  | EventType.postRunCommand => "\"post_run_command\""
  | EventType.preUserPrompt => "\"pre_user_prompt\""
  | EventType.postModelResponse => "\"post_model_response\""
  | EventType.notificationEvent => "\"notification\""
  | EventType.permissionRequest => "\"permission_request\""
  | EventType.stop => "\"stop\""
  | EventType.subagentStop => "\"subagent_stop\""
  | EventType.unknown x => "\x7b\"unknown\":" ++ serializeJsonString x ++ "\x7d"

/-- The string the engine compares triggers against:
`serde_json::to_string(&event.event_type)?.trim_matches('"')`. -/
def eventTypeStr (et : EventType) : String :=
  trimMatchesChar '"' (serializeEventType et)

/-! ## Rule engine (`src/hooks/engine.rs`) -/

/-- One trigger string tested against an event, mirroring the body of the
loop in `RuleEngine::matches_triggers`: the trigger matches when it is the
literal `"all"`, or equals the canonical serialized event type, or equals the
`agent_action_name` or `hook_event_name` field of the retained original
payload. -/
def triggerMatchesEvent (e : ProjectLintEvent) (trigger : String) : Bool :=
  trigger == "all" || trigger == eventTypeStr e.event_type ||
    (match e.context.original_payload with
     | some payload =>
       (match jsonAsStr (jsonIndex payload "agent_action_name") with
        | some action_name => trigger == action_name
        | none => false) ||
       (match jsonAsStr (jsonIndex payload "hook_event_name") with
        | some hook_event_name => trigger == hook_event_name
        | none => false)
     | none => false)

/-- `RuleEngine::matches_triggers`: false on an empty trigger list, otherwise
true when some trigger in the list matches the event. -/
def matches_triggers (triggers : List String) (e : ProjectLintEvent) : Bool :=
  if triggers.isEmpty then false
  else triggers.any (triggerMatchesEvent e)

/-- `matches_pattern` from `src/commands/watch.rs` (called as
`crate::utils::matches_pattern` by the engine): four wildcard shapes keyed on
leading/trailing `*`.  For the one-character pattern `"*"` the Rust code
takes the slice `pattern[1..0]`, which panics (`none` here). -/
def matches_pattern (file_name pattern : String) : Option Bool :=
  if strStartsWith pattern "*" && strEndsWith pattern "*" then
    if pattern.data.length < 2 then none
    else some (strContainsSub file_name (String.mk (pattern.data.drop 1).dropLast))
  else if strStartsWith pattern "*" then
    some (strEndsWith file_name (String.mk (pattern.data.drop 1)))
  else if strEndsWith pattern "*" then
    some (strStartsWith file_name (String.mk pattern.data.dropLast))
  else some (file_name == pattern)

/-- The `matched` computation at the top of `RuleEngine::evaluate_custom_rule`:
the event's file path (when present) is tested against the rule's pattern,
and a rule whose pattern is literally `"*"` matches even without a file path. -/
def ruleMatched (rule : CustomRule) (e : ProjectLintEvent) : Option Bool :=
  (match e.context.file_path with
   | some path => matches_pattern path rule.pattern
   | none => some false).map
    (fun matched => if !matched && rule.pattern == "*" then true else matched)

/-- `RuleEngine::is_pnpm_workspace`: requires a readable, parseable
`package.json`; inside a successful parse, checks the `packageManager` field,
then `pnpm-workspace.yaml`/`.yml`, then `pnpm-lock.yaml`. -/
def is_pnpm_workspace (dir : ProjectDir) : Bool :=
  match dir.packageJson with
  | none => false
  | some none => false
  | some (some package_json) =>
    (match (jsonGet package_json "packageManager").bind jsonAsStr with
     | some pm_str => strStartsWith pm_str "pnpm"
     | none => false) ||
    (dir.pnpmWorkspaceYaml || dir.pnpmWorkspaceYml) ||
    dir.pnpmLockYaml

/-- `RuleEngine::extract_command_from_input`: `input` as a string, then
`tool_input` as a string, then the first string among the generic fields
`command`, `cmd`, `input`, `tool_input`. -/
def extract_command_from_input (tool_input : Json) : Option String :=
  match (jsonGet tool_input "input").bind jsonAsStr with
  | some input => some input
  | none =>
    match (jsonGet tool_input "tool_input").bind jsonAsStr with
    | some s => some s
    | none =>
      (["command", "cmd", "input", "tool_input"].filterMap
        (fun field => (jsonGet tool_input field).bind jsonAsStr)).head?

/-- The message built by `RuleEngine::evaluate_pnpm_rule` for a detected npm
command. -/
def pnpmIssueMessage (found suggested : String) : String :=
  "🚫 This project uses pnpm (detected in package.json).\n\nFound: " ++ found ++
    "\nSuggested: " ++ suggested ++
    "\n\nThe command has been automatically rewritten to use pnpm."

/-- `RuleEngine::evaluate_pnpm_rule`: only fires on `PreToolUse` events, in a
pnpm workspace, when the extracted tool command starts with `"npm "`. -/
def evaluate_pnpm_rule (rule : CustomRule) (dir : ProjectDir) (e : ProjectLintEvent) :
    Option DetectedIssue :=
  match e.event_type with
  | EventType.preToolUse =>
    if !is_pnpm_workspace dir then none
    else
      match e.context.tool_input with
      | some tool_input =>
        match extract_command_from_input tool_input with
        | some command_str =>
          if strStartsWith command_str "npm " then
            some { name := rule.name
                 , message := pnpmIssueMessage command_str (strReplace command_str "npm " "pnpm ")
                 , severity := rule.severity }
          else none
        | none => none
      | none => none
  | _ => none

/-- `RuleEngine::evaluate_custom_rule`.  The outer `Option` is panic
propagation from `matches_pattern`; the inner `Option DetectedIssue` is the
function's `Ok` payload. -/
def evaluate_custom_rule (rule : CustomRule) (dir : ProjectDir) (e : ProjectLintEvent) :
    Option (Option DetectedIssue) :=
  match ruleMatched rule e with
  | none => none
  | some false => some none
  | some true =>
    if rule.name == "pnpm-workspace-enforcer" then
      some (evaluate_pnpm_rule rule dir e)
    else if rule.check_content then
      let content_to_check := e.context.user_prompt.getD "" ++ e.context.file_content.getD ""
      match rule.content_pattern with
      | some pattern =>
        let contains := strContainsSub content_to_check pattern
        let is_violation :=
          match rule.condition with
          | some c => if c == "must_contain" then !contains else contains
          | none => contains
        if is_violation then
          some (some { name := rule.name, message := rule.message, severity := rule.severity })
        else some none
      | none => some none
    else if !rule.required then
      some (some { name := rule.name, message := rule.message, severity := rule.severity })
    else some none

/-- The severity icon prefixed to each aggregated issue line. -/
def severityIcon : RuleSeverity → String
  | RuleSeverity.error => "❌"
  | RuleSeverity.warning => "⚠️"
  | RuleSeverity.info => "ℹ️"

/-- One line of the aggregated message: `"{icon} {name}: {message}\n"`. -/
def issueLine (issue : DetectedIssue) : String :=
  severityIcon issue.severity ++ " " ++ issue.name ++ ": " ++ issue.message ++ "\n"

/-- The `matches!(severity, Error)` test used to choose Deny over Warn. -/
def isErrorSeverity (issue : DetectedIssue) : Bool :=
  match issue.severity with
  | RuleSeverity.error => true
  | _ => false

/-- The modified-input computation done per issue inside the aggregation loop
of `RuleEngine::evaluate_event`: for an issue named `pnpm-workspace-enforcer`,
re-extract the command from the event's tool input and, when it starts with
`"npm "`, store a clone of the tool input whose `input` (or else `tool_input`)
field is overwritten with the rewritten command. -/
def pnpmRewriteStep (e : ProjectLintEvent) (acc : Option Json) (issue : DetectedIssue) :
    Option Json :=
  if issue.name == "pnpm-workspace-enforcer" then
    match e.context.tool_input with
    | some tool_input =>
      match extract_command_from_input tool_input with
      | some command_str =>
        if strStartsWith command_str "npm " then
          let rewritten_command := strReplace command_str "npm " "pnpm "
          match jsonGet tool_input "input" with
          | some _ => some (jsonSet tool_input "input" (Json.str rewritten_command))
          | none =>
            match jsonGet tool_input "tool_input" with
            | some _ => some (jsonSet tool_input "tool_input" (Json.str rewritten_command))
            | none => acc
        else acc
      | none => acc
    | none => acc
  else acc

/-- Evaluation of a list of nested custom rules (the `custom_rules` of one
triggered modular rule), collecting the issues in declaration order.  `none`
propagates a panic. -/
def evalCustomRulesList (rules : List CustomRule) (dir : ProjectDir) (e : ProjectLintEvent) :
    Option (List DetectedIssue) :=
  match rules with
  | [] => some []
  | rule :: rest =>
    match evaluate_custom_rule rule dir e with
    | none => none
    | some issueOpt =>
      match evalCustomRulesList rest dir e with
      | none => none
      | some restIssues =>
        some (match issueOpt with
              | some issue => issue :: restIssues
              | none => restIssues)

/-- Step 1 of `RuleEngine::evaluate_event`: enabled modular rules whose
triggers match contribute the issues of their nested custom rules, in file
order. -/
def evalModularRules (mrs : List ModularRule) (dir : ProjectDir) (e : ProjectLintEvent) :
    Option (List DetectedIssue) :=
  match mrs with
  | [] => some []
  | mr :: rest =>
    if !mr.enabled then evalModularRules rest dir e
    else if matches_triggers mr.triggers e then
      match (match mr.rules with
             | some rs => evalCustomRulesList rs dir e
             | none => some []) with
      | none => none
      | some here => (evalModularRules rest dir e).map (fun there => here ++ there)
    else evalModularRules rest dir e

/-- Step 2 of `RuleEngine::evaluate_event`: each top-level custom rule is
trigger-checked and evaluated, in declaration order. -/
def evalTopLevelRules (rules : List CustomRule) (dir : ProjectDir) (e : ProjectLintEvent) :
    Option (List DetectedIssue) :=
  match rules with
  | [] => some []
  | rule :: rest =>
    if matches_triggers rule.triggers e then
      match evaluate_custom_rule rule dir e with
      | none => none
      | some issueOpt =>
        (evalTopLevelRules rest dir e).map
          (fun restIssues =>
            match issueOpt with
            | some issue => issue :: restIssues
            | none => restIssues)
    else evalTopLevelRules rest dir e

/-- `RuleEngine::evaluate_event`: collect issues from modular then top-level
rules; with no issues return the default result, otherwise fold the issues
into one message (and possibly a rewritten tool input) and pick Deny exactly
when some issue has Error severity. -/
def evaluate_event (cfg : Config) (dir : ProjectDir) (e : ProjectLintEvent) :
    Option HookResult :=
  match evalModularRules cfg.modular_rules dir e with
  | none => none
  | some modularIssues =>
    match evalTopLevelRules cfg.rules.custom_rules dir e with
    | none => none
    | some topIssues =>
      let issues := modularIssues ++ topIssues
      if issues.isEmpty then some hookResultDefault
      else
        let has_errors := issues.any isErrorSeverity
        let folded := issues.foldl
          (fun acc issue => (acc.1 ++ issueLine issue, pnpmRewriteStep e acc.2 issue))
          ("Project Lint violations detected:\n", (none : Option Json))
        some { decision := if has_errors then Decision.deny else Decision.warn
             , message := some folded.1
             , modified_input := folded.2 }

/-! ## Claude event mapper (`src/hooks/mappers/claude.rs`) and hook driver
(`src/commands/hook.rs`) -/

/-- The `hook_event_name` → `EventType` table of `ClaudeMapper::map_event`;
unrecognized names (including the empty string that `unwrap_or_default`
yields for a missing field) become `Unknown(name)`. -/
def claudeEventTypeOfName (event_name : String) : EventType :=
  match event_name with
  | "PreToolUse" => EventType.preToolUse
  | "PostToolUse" => EventType.postToolUse
  | "UserPromptSubmit" => EventType.preUserPrompt
  | "SessionStart" => EventType.sessionStart
  | "SessionEnd" => EventType.sessionEnd
  | "Stop" => EventType.stop
  | "SubagentStop" => EventType.subagentStop
  | "Notification" => EventType.notificationEvent
  | "PermissionRequest" => EventType.permissionRequest
  | other => EventType.unknown other

/-- Context extraction of `ClaudeMapper::map_event` for tool-use events:
tool name, tool input, the tool response on the post variant, and a promoted
file path for the Read/Edit/Write tools. -/
def claudeToolContext (payload : Json) (base : EventContext) (isPost : Bool) : EventContext :=
  let tool_name := jsonAsStr (jsonIndex payload "tool_name")
  let tool_input := jsonIndex payload "tool_input"
  let file_path :=
    match tool_name with
    | some n =>
      if n == "Read" || n == "Edit" || n == "Write" then
        jsonAsStr (jsonIndex tool_input "file_path")
      else none
    | none => none
  { base with
      tool_name := tool_name
      tool_input := some tool_input
      tool_result := if isPost then some (jsonIndex payload "tool_response") else none
      file_path := file_path }

/-- `ClaudeMapper::map_event`.  The argument is the `serde_json::from_str`
result for the raw stdin text (`none`: malformed JSON, whose error the `?`
operator propagates).  The working directory that the Rust code stores on a
(drifted) `context.cwd` field is kept on the event's own `cwd`, which is what
the engine consumes. -/
def claudeMapEvent (parsed : Option Json) : Except String ProjectLintEvent :=
  match parsed with
  | none => Except.error "serde_json parse error"
  | some payload =>
    let event_name := (jsonAsStr (jsonIndex payload "hook_event_name")).getD ""
    let event_type := claudeEventTypeOfName event_name
    let base : EventContext :=
      { ide_source := "claude", original_payload := some payload }
    let context :=
      match event_type with
      | EventType.preToolUse => claudeToolContext payload base false
      | EventType.postToolUse => claudeToolContext payload base true
      | EventType.preUserPrompt =>
        { base with user_prompt := jsonAsStr (jsonIndex payload "prompt") }
      | _ => base
    Except.ok
      { event_type := event_type
      , session_id := jsonAsStr (jsonIndex payload "session_id")
      , timestamp := none
      , cwd := jsonAsStr (jsonIndex payload "cwd")
      , context := context }

/-- The control flow of `commands::hook::run` around parsing and blocking:
a mapper error is logged and the command returns `Ok(())` — nothing is
printed and the process completes with exit code 0; a mapped event is
evaluated, and the process exits 2 exactly on a Deny decision.  The returned
pair is (exit code, evaluation result actually produced). -/
def hookRun (mapResult : Except String ProjectLintEvent)
    (evaluateResult : ProjectLintEvent → HookResult) : Nat × Option HookResult :=
  match mapResult with
  | Except.error _ => (0, none)
  | Except.ok e =>
    let result := evaluateResult e
    ((match result.decision with
      | Decision.deny => 2
      | _ => 0), some result)

/-! ## Hook logger (`src/hooks/logger.rs`) -/

/-- `HookLogger::get_recent_logs`, abstracted over the line parser
(`serde_json::from_str::<HookLogEntry>` in the code) and over the current
day's log file (`none`: the file does not exist; `some lines`: its lines).
The code keeps the lines after `start_idx` and parses each, skipping (with a
warning) the ones that fail. -/
def get_recent_logs {E : Type} (parseLine : String → Option E)
    (logFileLines : Option (List String)) (limit : Option Nat) : List E :=
  match logFileLines with
  | none => []
  | some lines =>
    let start_idx :=
      match limit with
      | some l => if lines.length > l then lines.length - l else 0
      | none => 0
    (lines.drop start_idx).filterMap parseLine

/-! ## Concrete fixtures used by witnesses and counterexamples -/

/-- Whether `evaluate_custom_rule` reports an issue (panic counts as no issue). -/
def issueEmitted (rule : CustomRule) (dir : ProjectDir) (e : ProjectLintEvent) : Bool :=
  ((evaluate_custom_rule rule dir e).getD none).isSome

/-- A directory with no `package.json` and no pnpm markers. -/
def emptyDir : ProjectDir :=
  { packageJson := none, pnpmWorkspaceYaml := false, pnpmWorkspaceYml := false
  , pnpmLockYaml := false }

/-- A directory with no `package.json` but a `pnpm-lock.yaml`. -/
def lockOnlyDir : ProjectDir :=
  { packageJson := none, pnpmWorkspaceYaml := false, pnpmWorkspaceYml := false
  , pnpmLockYaml := true }

/-- A pnpm workspace: `package.json` with `"packageManager": "pnpm@8.0.0"`. -/
def pnpmWorkspaceDir : ProjectDir :=
  { packageJson := some (some (Json.obj [("packageManager", Json.str "pnpm@8.0.0")]))
  , pnpmWorkspaceYaml := false, pnpmWorkspaceYml := false, pnpmLockYaml := false }

/-- A plain npm project: parseable `package.json`, no pnpm markers. -/
def plainNodeDir : ProjectDir :=
  { packageJson := some (some (Json.obj [("name", Json.str "demo-project")]))
  , pnpmWorkspaceYaml := false, pnpmWorkspaceYml := false, pnpmLockYaml := false }

/-- A deny-list custom rule on `*.env` files (spec's example shape). -/
def envRule : CustomRule :=
  { name := "no-env-files", pattern := "*.env", message := "Do not touch env files"
  , severity := RuleSeverity.error, check_content := false, required := false
  , triggers := ["all"] }

/-- An event touching `config/secrets.env`. -/
def envEvent : ProjectLintEvent :=
  { event_type := EventType.preWriteCode
  , context := { file_path := some "config/secrets.env", ide_source := "windsurf" } }

/-- A rule named `pnpm-workspace-enforcer` in plain deny-list shape
(`check_content = false`, `required = false`). -/
def c3PnpmNamedRule : CustomRule :=
  { name := "pnpm-workspace-enforcer", pattern := "x", message := "m"
  , severity := RuleSeverity.warning, check_content := false, required := false
  , triggers := ["all"] }

/-- A session-start event whose file path exactly matches pattern `"x"`. -/
def c3Event : ProjectLintEvent :=
  { event_type := EventType.sessionStart, context := { file_path := some "x" } }

/-- An `Unknown(x)` event carrying no original payload. -/
def bareUnknownEvent (x : String) : ProjectLintEvent :=
  { event_type := EventType.unknown x, context := {} }

/-- An `Unknown(x)` event whose retained payload names the event `x`, the
shape every mapper produces for an unrecognized event name. -/
def payloadUnknownEvent (x : String) : ProjectLintEvent :=
  { event_type := EventType.unknown x
  , context := { original_payload := some (Json.obj [("hook_event_name", Json.str x)]) } }

/-- The pnpm enforcement rule as configured in `engine_tests.rs`. -/
def pnpmEnforcerRule : CustomRule :=
  { name := "pnpm-workspace-enforcer", pattern := "*", message := "Use pnpm instead"
  , severity := RuleSeverity.warning, check_content := false, content_pattern := none
  , exception_pattern := none, condition := none, required := false
  , required_if_path_exists := none, triggers := ["pre_tool_use"] }

/-- A config holding only the pnpm enforcement rule. -/
def pnpmTestConfig : Config :=
  { modular_rules := [], rules := { custom_rules := [pnpmEnforcerRule] } }

/-- The `PreToolUse` event of `engine_tests.rs`: tool input
`\x7b"input": "npm install express"\x7d`. -/
def npmToolEvent : ProjectLintEvent :=
  { event_type := EventType.preToolUse
  , session_id := some "test-session"
  , cwd := some "/tmp/test-project"
  , context := { tool_name := some "bash"
               , tool_input := some (Json.obj [("input", Json.str "npm install express")])
               , ide_source := "windsurf" } }

/-- A catch-all rule with the literal wildcard pattern `"*"`. -/
def starRule : CustomRule :=
  { name := "catch-all", pattern := "*", message := "m", severity := RuleSeverity.info
  , triggers := ["all"] }

/-- An event that carries a file path. -/
def fileEvent : ProjectLintEvent :=
  { event_type := EventType.preWriteCode
  , context := { file_path := some "config/secrets.env" } }

/-- A rule named `pnpm-workspace-enforcer` with `check_content` set and no
`content_pattern`. -/
def c10PnpmRule : CustomRule :=
  { name := "pnpm-workspace-enforcer", pattern := "x", message := "m"
  , severity := RuleSeverity.warning, check_content := true, content_pattern := none
  , required := false, triggers := ["pre_tool_use"] }

/-- An ordinarily named rule with `check_content` set and no `content_pattern`. -/
def c10BenignRule : CustomRule :=
  { name := "content-rule", pattern := "x", message := "m"
  , severity := RuleSeverity.warning, check_content := true, content_pattern := none
  , required := false, triggers := ["all"] }

/-- A `PreToolUse` event with a matching file path and an npm tool command. -/
def c10Event : ProjectLintEvent :=
  { event_type := EventType.preToolUse
  , context := { file_path := some "x"
               , tool_input := some (Json.obj [("input", Json.str "npm install left-pad")]) } }

/-- A toy log-line parser for which exactly the line `"bad"` is malformed. -/
def toyParseLine (s : String) : Option String := if s == "bad" then none else some s

/-- Spec-side predicate ("its `package.json` declares a `packageManager`
field starting with `pnpm`"), for comparison with `is_pnpm_workspace`. -/
def declaresPnpmPackageManager (package_json : Json) : Bool :=
  match (jsonGet package_json "packageManager").bind jsonAsStr with
  | some pm_str => strStartsWith pm_str "pnpm"
  | none => false

/-- An `Unknown(x)` event whose retained payload carries
`agent_action_name = x` (the Windsurf-style shape). -/
def actionUnknownEvent (x : String) : ProjectLintEvent :=
  { event_type := EventType.unknown x
  , context := { original_payload := some (Json.obj [("agent_action_name", Json.str x)]) } }

/-! ## Helper lemmas -/

theorem strData_append (a b : String) : (a ++ b).data = a.data ++ b.data := rfl

theorem strAppend_assoc (a b c : String) : a ++ b ++ c = a ++ (b ++ c) := by
  cases a; cases b; cases c
  show String.mk _ = String.mk _
  simp [String.append]

theorem strAppend_empty (a : String) : a ++ "" = a := by
  cases a
  show String.mk _ = String.mk _
  simp [String.append]

theorem strEmpty_append (a : String) : "" ++ a = a := by
  cases a
  show String.mk _ = String.mk _
  simp [String.append]

theorem strJoin_nil : strJoin [] = "" := rfl

theorem strJoin_cons (s : String) (rest : List String) :
    strJoin (s :: rest) = s ++ strJoin rest := rfl

theorem strJoin_append (a b : List String) : strJoin (a ++ b) = strJoin a ++ strJoin b := by
  induction a with
  | nil => simp [strJoin_nil, strEmpty_append]
  | cons s rest ih => simp [strJoin_cons, ih, strAppend_assoc]

/-- The message/modified-input fold of `evaluate_event`, split into the
concatenation of the per-issue lines and the rewrite fold. -/
theorem foldl_issue_fold (e : ProjectLintEvent) (issues : List DetectedIssue)
    (acc : String) (mi : Option Json) :
    issues.foldl (fun acc2 issue => (acc2.1 ++ issueLine issue, pnpmRewriteStep e acc2.2 issue))
        (acc, mi)
      = (acc ++ strJoin (issues.map issueLine), issues.foldl (pnpmRewriteStep e) mi) := by
  induction issues generalizing acc mi with
  | nil => simp [strJoin_nil, strAppend_empty]
  | cons i rest ih => simp [strJoin_cons, ih, strAppend_assoc]

theorem escChar_length_pos (c : Char) : 1 ≤ (escChar c).length := by
  unfold escChar
  split_ifs <;> simp

theorem escStr_length_ge (l : List Char) : l.length ≤ (escStr l).length := by
  induction l with
  | nil => simp [escStr]
  | cons c cs ih =>
    have h := escChar_length_pos c
    simp only [escStr, List.length_append, List.length_cons]
    omega

/-- `trim_matches('"')` leaves a brace-delimited list unchanged. -/
theorem trim_quotes_brace (T : List Char) :
    ((('{' :: (T ++ ['}'])).dropWhile (fun a => a == '"')).reverse.dropWhile
        (fun a => a == '"')).reverse = '{' :: (T ++ ['}']) := by
  have h1 : List.dropWhile (fun a => a == '"') ('{' :: (T ++ ['}'])) = '{' :: (T ++ ['}']) := by
    simp [List.dropWhile]
  rw [h1]
  have h2 : ('{' :: (T ++ ['}'])).reverse = '}' :: (T.reverse ++ ['{']) := by simp
  rw [h2]
  have h3 : List.dropWhile (fun a => a == '"') ('}' :: (T.reverse ++ ['{']))
      = '}' :: (T.reverse ++ ['{']) := by
    simp [List.dropWhile]
  rw [h3, ← h2, List.reverse_reverse]

/-- The serialized form of `Unknown(x)` keeps its braces after
`trim_matches('"')`: the data of `eventTypeStr (Unknown x)` spelled out. -/
theorem eventTypeStr_unknown_data (x : String) :
    (eventTypeStr (EventType.unknown x)).data
      = '{' :: ((['"', 'u', 'n', 'k', 'n', 'o', 'w', 'n', '"', ':', '"']
          ++ escStr x.data ++ ['"']) ++ ['}']) := by
  have hdata : (serializeEventType (EventType.unknown x)).data
      = '{' :: ((['"', 'u', 'n', 'k', 'n', 'o', 'w', 'n', '"', ':', '"']
          ++ escStr x.data ++ ['"']) ++ ['}']) := rfl
  show (((serializeEventType (EventType.unknown x)).data.dropWhile
      (fun a => a == '"')).reverse.dropWhile (fun a => a == '"')).reverse = _
  rw [hdata]
  exact trim_quotes_brace _

theorem beq_self_unknown_eventTypeStr (x : String) :
    (x == eventTypeStr (EventType.unknown x)) = false := by
  apply beq_eq_false_iff_ne.mpr
  intro h
  have hdata2 := congrArg String.data h
  rw [eventTypeStr_unknown_data] at hdata2
  have hlen := congrArg List.length hdata2
  simp only [List.length_append, List.length_cons, List.length_nil] at hlen
  have hge := escStr_length_ge x.data
  omega

theorem beq_preToolUse_unknown_eventTypeStr (x : String) :
    ("pre_tool_use" == eventTypeStr (EventType.unknown x)) = false := by
  apply beq_eq_false_iff_ne.mpr
  intro h
  have hdata2 := congrArg String.data h
  rw [eventTypeStr_unknown_data] at hdata2
  have hh := congrArg List.head? hdata2
  simp at hh

/-! ## Claim theorems -/

/-- C1: for every event, a rule whose triggers list is empty never matches:
`matches_triggers` returns false, so such a rule never fires on any event. -/
theorem matches_triggers_empty (e : ProjectLintEvent) : matches_triggers [] e = false := rfl

/-- C2: aggregation in `evaluate_event`.  When both rule passes complete, the
issues are exactly those of the enabled modular rules (in declaration order)
followed by those of the top-level custom rules; with no issues the result is
the default Allow with no message; otherwise the decision is Deny exactly
when some issue has Error severity (else Warn) and the message is the header
followed by one icon-prefixed line per issue in that order. -/
theorem evaluate_event_aggregation (cfg : Config) (dir : ProjectDir) (e : ProjectLintEvent) :
    evaluate_event cfg dir e =
      match evalModularRules cfg.modular_rules dir e,
          evalTopLevelRules cfg.rules.custom_rules dir e with
      | some modularIssues, some topIssues =>
        let issues := modularIssues ++ topIssues
        if issues.isEmpty then some hookResultDefault
        else some { decision := if issues.any isErrorSeverity then Decision.deny else Decision.warn
                  , message := some ("Project Lint violations detected:\n"
                      ++ strJoin (issues.map issueLine))
                  , modified_input := issues.foldl (pnpmRewriteStep e) none }
      | _, _ => none := by
  unfold evaluate_event
  cases evalModularRules cfg.modular_rules dir e with
  | none => rfl
  | some mod =>
    cases evalTopLevelRules cfg.rules.custom_rules dir e with
    | none => rfl
    | some top =>
      by_cases h : (mod ++ top).isEmpty
      · simp [h]
      · simp [h, foldl_issue_fold, strJoin_append, strAppend_assoc]

/-- C3 (amended): violation polarity of `evaluate_custom_rule` for rules not
named `pnpm-workspace-enforcer` whose triggers and pattern match the event:
with `check_content` set and a `content_pattern`, an issue is emitted exactly
when the pattern is absent from the concatenated prompt-and-content under
`condition = "must_contain"`, and exactly when it is present otherwise; with
`check_content` unset, an issue is emitted exactly when the rule is not
`required`.  Rules named `pnpm-workspace-enforcer` are diverted to the pnpm
code path instead (see the counterexample). -/
theorem evaluate_custom_rule_polarity (rule : CustomRule) (dir : ProjectDir)
    (e : ProjectLintEvent)
    (hname : rule.name ≠ "pnpm-workspace-enforcer")
    (htrig : matches_triggers rule.triggers e = true)
    (hmatch : ruleMatched rule e = some true) :
    (∀ p, rule.check_content = true → rule.content_pattern = some p →
        issueEmitted rule dir e =
          (let present := strContainsSub
              (e.context.user_prompt.getD "" ++ e.context.file_content.getD "") p
           if rule.condition = some "must_contain" then !present else present)) ∧
    (rule.check_content = false → issueEmitted rule dir e = !rule.required) := by
  have hname2 : (rule.name == "pnpm-workspace-enforcer") = false :=
    beq_eq_false_iff_ne.mpr hname
  constructor
  · intro p hc hp
    unfold issueEmitted evaluate_custom_rule
    rw [hmatch]
    simp only [hname2, Bool.false_eq_true, if_false, hc, if_true, hp]
    cases hcond : rule.condition with
    | none =>
      cases hb : strContainsSub
          (e.context.user_prompt.getD "" ++ e.context.file_content.getD "") p <;> simp
    | some c =>
      by_cases hmc : c = "must_contain"
      · subst hmc
        cases hb : strContainsSub
            (e.context.user_prompt.getD "" ++ e.context.file_content.getD "") p <;> simp
      · have hne : (c == "must_contain") = false := beq_eq_false_iff_ne.mpr hmc
        cases hb : strContainsSub
            (e.context.user_prompt.getD "" ++ e.context.file_content.getD "") p <;>
          simp [hne, hmc]
  · intro hc
    unfold issueEmitted evaluate_custom_rule
    rw [hmatch]
    simp only [hname2, Bool.false_eq_true, if_false, hc, if_true]
    cases hr : rule.required <;> simp

/-- C3 witness: the deny-list `*.env` rule (not required, no content check)
fires on an event touching `config/secrets.env`. -/
theorem evaluate_custom_rule_polarity_witness :
    issueEmitted envRule emptyDir envEvent = !envRule.required :=
  (evaluate_custom_rule_polarity envRule emptyDir envEvent (by decide) (by decide)
    (by decide)).2 rfl

/-- C3 counterexample: a rule literally named `pnpm-workspace-enforcer` with
`check_content = false` and `required = false`, whose triggers and pattern
match a session-start event, emits no issue — against the claimed polarity,
which demands an issue for any matching non-required rule. -/
theorem pnpm_named_rule_breaks_polarity :
    matches_triggers c3PnpmNamedRule.triggers c3Event = true ∧
    ruleMatched c3PnpmNamedRule c3Event = some true ∧
    c3PnpmNamedRule.check_content = false ∧
    c3PnpmNamedRule.required = false ∧
    evaluate_custom_rule c3PnpmNamedRule emptyDir c3Event = some none :=
  ⟨by decide, by decide, rfl, rfl, rfl⟩

/-- C4: the Rust `matches_pattern` panics on the literal wildcard pattern
`"*"` (byte slice `pattern[1..0]`), so an event that carries a file path
makes `evaluate_custom_rule` panic on a `"*"` rule instead of matching it;
only an event without a file path reaches the `pattern == "*"` fallback and
fires. -/
theorem star_pattern_panics :
    matches_pattern "config/secrets.env" "*" = none ∧
    evaluate_custom_rule starRule emptyDir fileEvent = none ∧
    evaluate_custom_rule starRule emptyDir npmToolEvent =
      some (some { name := "catch-all", message := "m", severity := RuleSeverity.info }) :=
  ⟨rfl, rfl, rfl⟩

/-- C5 (amended): an `Unknown(x)` event serializes to the tagged object form,
never to the bare string `x`, so a bare `Unknown(x)` event (no original
payload) matches the singleton trigger list `[x]` exactly when `x = "all"`,
and never matches a different canonical event-type trigger; an `Unknown(x)`
event whose retained payload carries `hook_event_name = x` or
`agent_action_name = x` (the shape mappers produce) does match `[x]`. -/
theorem unknown_trigger_matching :
    (∀ (x : String) (e : ProjectLintEvent), e.event_type = EventType.unknown x →
        e.context.original_payload = none →
        matches_triggers [x] e = (x == "all") ∧
          matches_triggers ["pre_tool_use"] e = false) ∧
    (∀ (x : String) (e : ProjectLintEvent) (payload : Json),
        e.context.original_payload = some payload →
        jsonAsStr (jsonIndex payload "hook_event_name") = some x →
        matches_triggers [x] e = true) ∧
    (∀ (x : String) (e : ProjectLintEvent) (payload : Json),
        e.context.original_payload = some payload →
        jsonAsStr (jsonIndex payload "agent_action_name") = some x →
        matches_triggers [x] e = true) := by
  refine ⟨?_, ?_, ?_⟩
  · intro x e het hop
    constructor
    · simp [matches_triggers, triggerMatchesEvent, het, hop,
        beq_self_unknown_eventTypeStr]
    · simp [matches_triggers, triggerMatchesEvent, het, hop,
        beq_preToolUse_unknown_eventTypeStr,
        show (("pre_tool_use" : String) == "all") = false from rfl]
  · intro x e payload hop hname
    simp [matches_triggers, triggerMatchesEvent, hop, hname]
  · intro x e payload hop hname
    simp [matches_triggers, triggerMatchesEvent, hop, hname]

/-- C5 witness: concrete instances of all three parts at `"my_custom"`. -/
theorem unknown_trigger_matching_witness :
    (matches_triggers ["my_custom"] (bareUnknownEvent "my_custom") = ("my_custom" == "all") ∧
     matches_triggers ["pre_tool_use"] (bareUnknownEvent "my_custom") = false) ∧
    matches_triggers ["my_custom"] (payloadUnknownEvent "my_custom") = true ∧
    matches_triggers ["my_custom"] (actionUnknownEvent "my_custom") = true := by
  refine ⟨?_, ?_, ?_⟩
  · exact unknown_trigger_matching.1 "my_custom" (bareUnknownEvent "my_custom") rfl rfl
  · exact unknown_trigger_matching.2.1 "my_custom" (payloadUnknownEvent "my_custom")
      (Json.obj [("hook_event_name", Json.str "my_custom")]) rfl rfl
  · exact unknown_trigger_matching.2.2 "my_custom" (actionUnknownEvent "my_custom")
      (Json.obj [("agent_action_name", Json.str "my_custom")]) rfl rfl

/-- C5 counterexample: an `Unknown("custom_event")` event with no original
payload does not match a rule whose trigger list contains exactly
`"custom_event"`, against the claim. -/
theorem bare_unknown_trigger_mismatch :
    matches_triggers ["custom_event"] (bareUnknownEvent "custom_event") = false := rfl

/-- C6 (amended): `is_pnpm_workspace` holds exactly when `package.json`
exists and parses AND (its `packageManager` starts with `pnpm`, or a
`pnpm-workspace.yaml`/`.yml` exists, or a `pnpm-lock.yaml` exists).  Absence
or unparseability of `package.json` yields "not a workspace" even when the
pnpm marker files exist (see the counterexample), not the claimed plain
disjunction. -/
theorem is_pnpm_workspace_characterization (dir : ProjectDir) :
    is_pnpm_workspace dir = true ↔
      ∃ pkg, dir.packageJson = some (some pkg) ∧
        (declaresPnpmPackageManager pkg = true ∨ dir.pnpmWorkspaceYaml = true ∨
         dir.pnpmWorkspaceYml = true ∨ dir.pnpmLockYaml = true) := by
  obtain ⟨pj, b1, b2, b3⟩ := dir
  cases pj with
  | none => simp [is_pnpm_workspace]
  | some popt =>
    cases popt with
    | none => simp [is_pnpm_workspace]
    | some pkg =>
      simp only [is_pnpm_workspace, declaresPnpmPackageManager, Bool.or_eq_true]
      constructor
      · intro h
        exact ⟨pkg, rfl, by tauto⟩
      · rintro ⟨pkg2, hpkg, hdisj⟩
        simp only [Option.some.injEq] at hpkg
        subst hpkg
        tauto

/-- C6 witness: a `package.json` declaring `packageManager = "pnpm@8.0.0"`
is classified as a pnpm workspace. -/
theorem is_pnpm_workspace_characterization_witness :
    is_pnpm_workspace pnpmWorkspaceDir = true :=
  (is_pnpm_workspace_characterization pnpmWorkspaceDir).mpr
    ⟨Json.obj [("packageManager", Json.str "pnpm@8.0.0")], rfl, Or.inl rfl⟩

/-- C6 counterexample: a directory with a `pnpm-lock.yaml` but no
`package.json` is NOT classified as a pnpm workspace, although the claimed
disjunction (lockfile exists) holds. -/
theorem lock_only_dir_not_workspace :
    lockOnlyDir.pnpmLockYaml = true ∧ is_pnpm_workspace lockOnlyDir = false := ⟨rfl, rfl⟩

/-- C7: the pnpm rule fires only on `PreToolUse` events; with the test
config, a pnpm workspace (`packageManager = "pnpm@8.0.0"`) and the
`PreToolUse` event whose tool input holds `input = "npm install express"`,
`evaluate_event` returns decision Warn and a modified input whose `input`
field is `"pnpm install express"`; the same event over a directory without
pnpm markers yields the default Allow with no message. -/
theorem pnpm_rule_behavior :
    (∀ (rule : CustomRule) (dir : ProjectDir) (e : ProjectLintEvent),
        e.event_type ≠ EventType.preToolUse → evaluate_pnpm_rule rule dir e = none) ∧
    (evaluate_event pnpmTestConfig pnpmWorkspaceDir npmToolEvent).map
        (fun r => r.decision) = some Decision.warn ∧
    (evaluate_event pnpmTestConfig pnpmWorkspaceDir npmToolEvent).map
        (fun r => r.modified_input) =
      some (some (Json.obj [("input", Json.str "pnpm install express")])) ∧
    evaluate_event pnpmTestConfig plainNodeDir npmToolEvent = some hookResultDefault := by
  refine ⟨?_, rfl, rfl, rfl⟩
  intro rule dir e h
  unfold evaluate_pnpm_rule
  cases he : e.event_type
  case preToolUse => exact absurd he h
  all_goals rfl

/-- C7 witness: the pnpm rule does not fire on a non-`PreToolUse` event even
inside a pnpm workspace. -/
theorem pnpm_rule_behavior_witness :
    evaluate_pnpm_rule pnpmEnforcerRule pnpmWorkspaceDir envEvent = none :=
  pnpm_rule_behavior.1 pnpmEnforcerRule pnpmWorkspaceDir envEvent (by decide)

/-- C8 (amended): malformed JSON makes `ClaudeMapper::map_event` return a
parse error, and the hook command treats a mapper error as success — exit
code 0, no evaluation, no blocking response; a payload that merely lacks the
`hook_event_name` discriminant is NOT a parse error: it maps to an
`Unknown("")` event (see the counterexample). -/
theorem parse_failure_is_nonblocking :
    claudeMapEvent none = Except.error "serde_json parse error" ∧
    (∀ (err : String) (evaluateResult : ProjectLintEvent → HookResult),
        hookRun (Except.error err) evaluateResult = (0, none)) ∧
    claudeMapEvent (some (Json.obj [("cwd", Json.str "/tmp/p")])) =
      Except.ok { event_type := EventType.unknown ""
                , session_id := none, timestamp := none, cwd := some "/tmp/p"
                , context := { ide_source := "claude"
                             , original_payload := some (Json.obj [("cwd", Json.str "/tmp/p")]) } } :=
  ⟨rfl, fun _ _ => rfl, rfl⟩

/-- C8 counterexample: a valid JSON object missing the required discriminant
field maps to `Ok` (an `Unknown("")` event), not to a parse error as the
claim states. -/
theorem missing_discriminant_not_parse_error :
    claudeMapEvent (some (Json.obj [])) =
      Except.ok { event_type := EventType.unknown ""
                , session_id := none, timestamp := none, cwd := none
                , context := { ide_source := "claude"
                             , original_payload := some (Json.obj []) } } := rfl

/-- C9 (amended): `get_recent_logs` returns an empty list when the file does
not exist and all parseable lines when no limit is given; with a limit it
keeps the last `limit` LINES and parses those, so it returns at most `limit`
entries forming a suffix of the file's parseable entries — not necessarily
the last `limit` parseable entries (see the counterexample). -/
theorem get_recent_logs_characterization :
    (∀ (E : Type) (parseLine : String → Option E) (limit : Option Nat),
        get_recent_logs parseLine none limit = []) ∧
    (∀ (E : Type) (parseLine : String → Option E) (lines : List String),
        get_recent_logs parseLine (some lines) none = lines.filterMap parseLine) ∧
    (∀ (E : Type) (parseLine : String → Option E) (lines : List String) (l : Nat),
        (get_recent_logs parseLine (some lines) (some l)).length ≤ l ∧
        (get_recent_logs parseLine (some lines) (some l)) <:+ lines.filterMap parseLine) := by
  refine ⟨fun _ _ _ => rfl, fun _ _ lines => by simp [get_recent_logs], ?_⟩
  intro E parseLine lines l
  constructor
  · show ((lines.drop (if lines.length > l then lines.length - l else 0)).filterMap
        parseLine).length ≤ l
    calc ((lines.drop (if lines.length > l then lines.length - l else 0)).filterMap
            parseLine).length
        ≤ (lines.drop (if lines.length > l then lines.length - l else 0)).length :=
          List.length_filterMap_le _ _
      _ = lines.length - (if lines.length > l then lines.length - l else 0) :=
          List.length_drop _ _
      _ ≤ l := by
          by_cases hc : lines.length > l
          · rw [if_pos hc]; omega
          · rw [if_neg hc]; omega
  · exact ⟨(lines.take (if lines.length > l then lines.length - l else 0)).filterMap parseLine,
      by
        show (lines.take (if lines.length > l then lines.length - l else 0)).filterMap parseLine
            ++ (lines.drop (if lines.length > l then lines.length - l else 0)).filterMap parseLine
          = lines.filterMap parseLine
        rw [← List.filterMap_append, List.take_append_drop]⟩

/-- C9 counterexample: with lines `["a", "bb", "bad"]` (only `"bad"`
malformed) and limit 2, the code returns `["bb"]`, while the last 2 parseable
entries of the file are `["a", "bb"]`. -/
theorem last_limit_lines_not_entries :
    get_recent_logs toyParseLine (some ["a", "bb", "bad"]) (some 2) = ["bb"] ∧
    ["a", "bb", "bad"].filterMap toyParseLine = ["a", "bb"] ∧
    get_recent_logs toyParseLine (some ["a", "bb", "bad"]) (some 2) ≠ ["a", "bb"] :=
  ⟨rfl, rfl, by decide⟩

/-- C10 (amended): a custom rule NOT named `pnpm-workspace-enforcer` with
`check_content` set and no `content_pattern` never yields an issue for any
event, regardless of `required`; a rule carrying the pnpm enforcer name
bypasses the content check and can still fire (see the counterexample). -/
theorem check_content_without_pattern_never_fires (rule : CustomRule) (dir : ProjectDir)
    (e : ProjectLintEvent)
    (hname : rule.name ≠ "pnpm-workspace-enforcer")
    (hc : rule.check_content = true)
    (hp : rule.content_pattern = none) :
    (evaluate_custom_rule rule dir e).getD none = none := by
  have hname2 : (rule.name == "pnpm-workspace-enforcer") = false :=
    beq_eq_false_iff_ne.mpr hname
  unfold evaluate_custom_rule
  cases hm : ruleMatched rule e with
  | none => rfl
  | some b => cases b <;> simp [hname2, hc, hp]

/-- C10 witness: an ordinarily named rule with `check_content` set and no
`content_pattern` yields no issue on a matching event. -/
theorem check_content_without_pattern_never_fires_witness :
    (evaluate_custom_rule c10BenignRule pnpmWorkspaceDir c10Event).getD none = none :=
  check_content_without_pattern_never_fires c10BenignRule pnpmWorkspaceDir c10Event
    (by decide) rfl rfl

/-- C10 counterexample: a rule named `pnpm-workspace-enforcer` with
`check_content = true` and `content_pattern = none` DOES fire (via the pnpm
code path) on a matching `PreToolUse` event in a pnpm workspace. -/
theorem pnpm_named_rule_fires_without_content_pattern :
    c10PnpmRule.check_content = true ∧
    c10PnpmRule.content_pattern = none ∧
    evaluate_custom_rule c10PnpmRule pnpmWorkspaceDir c10Event =
      some (some { name := "pnpm-workspace-enforcer"
                 , message := pnpmIssueMessage "npm install left-pad" "pnpm install left-pad"
                 , severity := RuleSeverity.warning }) :=
  ⟨rfl, rfl, rfl⟩
